import Mathlib

/-!
Verification development for the RAG PDF question-answering pipeline
(`src/main.py`).  The Python source is shallowly embedded: pure string
manipulation is translated to executable functions on `List Char` /
`String`, the stateful orchestrator is modelled by explicit state
passing, floating-point similarity scores are modelled as rationals,
and external collaborators (embedding model, FAISS index internals,
hosted LLMs) appear as explicit oracle parameters whose documented
behaviour is reproduced where the wrapper code depends on it.
-/

namespace RagSpec

/-! ### Whitespace utilities

Models of Python `str.strip()`, `re.sub(r"\s+", " ", text)` and
`str.split()` as used by `PDFProcessor`.  Whitespace is modelled by
`Char.isWhitespace` (space, tab, CR, LF); the Python versions also
accept `\f`, `\v` and some Unicode spaces, which none of the claims
exercise. -/

/-- Whether a character list starts with a whitespace character. -/
def headIsWS : List Char → Bool
  | [] => false
  | c :: _ => c.isWhitespace

/-- `re.sub(r"\s+", " ", text)` (main.py line 57): every maximal run of
whitespace characters is replaced by a single space.  All but the last
character of a run are dropped; the last one is emitted as `' '`. -/
def collapseWS : List Char → List Char
  | [] => []
  | c :: cs =>
    if c.isWhitespace then
      if headIsWS cs then collapseWS cs else ' ' :: collapseWS cs
    else c :: collapseWS cs

/-- Remove trailing whitespace (the right half of Python `str.strip()`). -/
def dropTrailingWS (l : List Char) : List Char :=
  (l.reverse.dropWhile Char.isWhitespace).reverse

/-- Python `str.strip()` on a character list. -/
def stripWS (l : List Char) : List Char :=
  dropTrailingWS (l.dropWhile Char.isWhitespace)

/-- Python `str.strip()` on a `String`. -/
def pyStrip (s : String) : String := String.mk (stripWS s.data)

/-- Word accumulator for `pySplit`: `acc` holds the current in-progress
word reversed; whitespace flushes it, and empty pieces are discarded. -/
def wordsAux : List Char → List Char → List String
  | [], acc => if acc.isEmpty then [] else [String.mk acc.reverse]
  | c :: cs, acc =>
    if c.isWhitespace then
      if acc.isEmpty then wordsAux cs [] else String.mk acc.reverse :: wordsAux cs []
    else wordsAux cs (c :: acc)

/-- Python `str.split()` with no argument: split on whitespace runs,
discarding empty pieces (main.py line 83). -/
def pySplit (s : String) : List String := wordsAux s.data []

/-! ### The three `re.sub` pattern matchers of `PDFProcessor.clean_text`
(main.py lines 47-59).

Each matcher tries to match its pattern at the head of the character
list and, on success, returns the remainder after the matched prefix.
The patterns contain no constructs requiring backtracking: every `\s+`
or `\s*` is followed by a letter literal, so maximal-munch whitespace
consumption is exact.  Matching is case-insensitive (`re.IGNORECASE`),
modelled by comparing `Char.toLower`. -/

/-- Match a literal (given in lower case) case-insensitively at the head;
return the rest on success. -/
def matchLitCI : List Char → List Char → Option (List Char)
  | [], s => some s
  | _ :: _, [] => none
  | p :: ps, c :: cs => if c.toLower = p then matchLitCI ps cs else none

/-- Match `\s+` (at least one whitespace character, maximal munch). -/
def matchWS1 : List Char → Option (List Char)
  | [] => none
  | c :: cs => if c.isWhitespace then some (cs.dropWhile Char.isWhitespace) else none

/-- Match `\s*` (maximal munch); always succeeds. -/
def wsDrop (l : List Char) : List Char := l.dropWhile Char.isWhitespace

/-- Match `STRICTLY\s+CONFIDENTIAL` at the head. -/
def matchSC (s : List Char) : Option (List Char) :=
  (matchLitCI "strictly".data s).bind fun s1 =>
    (matchWS1 s1).bind fun s2 =>
      matchLitCI "confidential".data s2

/-- Greedy star `(\s*STRICTLY\s+CONFIDENTIAL)*`: keep absorbing further
occurrences.  Fuel-indexed for structural termination; each successful
iteration consumes at least one character, so fuel `length + 1` is exact. -/
def matchSCstarF : Nat → List Char → List Char
  | 0, s => s
  | fuel + 1, s =>
    match matchSC (wsDrop s) with
    | some rest => matchSCstarF fuel rest
    | none => s

/-- Pattern 1 (main.py line 50):
`STRICTLY\s+CONFIDENTIAL(\s*STRICTLY\s+CONFIDENTIAL)*`. -/
def matchP1 (s : List Char) : Option (List Char) :=
  (matchSC s).map fun rest => matchSCstarF (rest.length + 1) rest

/-- Pattern 2 (main.py line 53): `Home\s+outline\s+`. -/
def matchP2 (s : List Char) : Option (List Char) :=
  (matchLitCI "home".data s).bind fun s1 =>
    (matchWS1 s1).bind fun s2 =>
      (matchLitCI "outline".data s2).bind matchWS1

/-- Pattern 3 (main.py line 54):
`Hamburger\s+Menu\s+Icon\s+with\s+solid\s+fill\s*`. -/
def matchP3 (s : List Char) : Option (List Char) :=
  (matchLitCI "hamburger".data s).bind fun s1 =>
    (matchWS1 s1).bind fun s2 =>
      (matchLitCI "menu".data s2).bind fun s3 =>
        (matchWS1 s3).bind fun s4 =>
          (matchLitCI "icon".data s4).bind fun s5 =>
            (matchWS1 s5).bind fun s6 =>
              (matchLitCI "with".data s6).bind fun s7 =>
                (matchWS1 s7).bind fun s8 =>
                  (matchLitCI "solid".data s8).bind fun s9 =>
                    (matchWS1 s9).bind fun s10 =>
                      (matchLitCI "fill".data s10).map wsDrop

/-- `re.sub(pattern, "", text)`: scan left to right; at each position try
the pattern, on a match drop the matched prefix and continue after it,
otherwise keep the character.  Fuel-indexed; every pattern used consumes
at least one character on success, so fuel `length + 1` is exact. -/
def subPatF (m : List Char → Option (List Char)) : Nat → List Char → List Char
  | 0, l => l
  | _ + 1, [] => []
  | fuel + 1, c :: cs =>
    match m (c :: cs) with
    | some rest => subPatF m fuel rest
    | none => c :: subPatF m fuel cs

/-- `re.sub(pattern, "", text)` with sufficient fuel. -/
def subPat (m : List Char → Option (List Char)) (l : List Char) : List Char :=
  subPatF m (l.length + 1) l

/-- `PDFProcessor.clean_text` (main.py lines 47-59): remove the
watermark pattern, the two navigation-boilerplate patterns, collapse
whitespace runs to single spaces, and strip the edges. -/
def clean_text (s : String) : String :=
  String.mk (stripWS (collapseWS (subPat matchP3 (subPat matchP2 (subPat matchP1 s.data)))))

/-- `m` matches at no position of the list (checked at every suffix). -/
def noMatchAll (m : List Char → Option (List Char)) : List Char → Bool
  | [] => (m []).isNone
  | c :: cs => (m (c :: cs)).isNone && noMatchAll m cs

/-- Characterisation of whitespace-collapsed text: every whitespace
character is a plain space and is not followed by another whitespace
character. -/
def isCollapsed : List Char → Bool
  | [] => true
  | c :: cs => (!c.isWhitespace || (decide (c = ' ') && !headIsWS cs)) && isCollapsed cs

/-! ### The `Chunk` data model (main.py lines 28-37) -/

/-- Decimal digit character for `n < 10`. -/
def digitCh (n : Nat) : Char := Char.ofNat (48 + n)

/-- Decimal rendering of a natural number, fuel-indexed so that it is
structurally recursive and kernel-evaluable; `n` has at most `n + 1`
decimal digits, so fuel `n + 1` is always sufficient. -/
def natToDecF : Nat → Nat → List Char
  | 0, _ => []
  | fuel + 1, n => if n < 10 then [digitCh n] else natToDecF fuel (n / 10) ++ [digitCh (n % 10)]

/-- Decimal rendering of a natural number (Python `f"{n}"`): no sign, no
leading zeros. -/
def natToDec (n : Nat) : List Char := natToDecF (n + 1) n

/-- A text chunk with metadata (`@dataclass Chunk`, main.py lines 28-37). -/
structure Chunk where
  text : String
  page_num : Nat
  chunk_id : Nat
  deriving DecidableEq, Repr

/-- `Chunk.get_citation` (main.py lines 35-37): the citation token
`[p{page_num}:c{chunk_id}]`. -/
def Chunk.get_citation (c : Chunk) : String :=
  String.mk ('[' :: 'p' :: natToDec c.page_num ++ ':' :: 'c' :: natToDec c.chunk_id ++ [']'])

/-! ### Citation-token recognition

The spec's citation well-formedness properties speak of substrings
matching `[p<digits>:c<digits>]`; we count the positions at which such
a token starts. -/

/-- Is the character a decimal digit? -/
def isDigitCh (c : Char) : Bool := decide ('0' ≤ c) && decide (c ≤ '9')

/-- Consume one-or-more digits (maximal munch); `none` if the head is
not a digit. -/
def munchDigits : List Char → Option (List Char)
  | [] => none
  | c :: cs => if isDigitCh c then some (cs.dropWhile isDigitCh) else none

/-- Match a case-sensitive literal at the head; return the rest on
success. -/
def matchLit : List Char → List Char → Option (List Char)
  | [], s => some s
  | _ :: _, [] => none
  | p :: ps, c :: cs => if c = p then matchLit ps cs else none

/-- Match a citation token `[p<digits>:c<digits>]` at the head of the
list; return the remainder on success. -/
def matchCitation (s : List Char) : Option (List Char) :=
  (matchLit ['[', 'p'] s).bind fun r0 =>
    (munchDigits r0).bind fun r1 =>
      (matchLit [':', 'c'] r1).bind fun r2 =>
        (munchDigits r2).bind fun r3 =>
          matchLit [']'] r3

/-- Number of positions at which a citation token starts. -/
def citationCount : List Char → Nat
  | [] => 0
  | c :: cs => (if (matchCitation (c :: cs)).isSome then 1 else 0) + citationCount cs

/-! ### Chunking (`PDFProcessor`, main.py lines 40-118) -/

/-- `PDFProcessor.__init__` (main.py lines 43-45): the constructor
stores `chunk_size` and `chunk_overlap` unconditionally — no
validation of `chunk_size > chunk_overlap` happens anywhere. -/
structure PDFProcessor where
  chunk_size : Nat
  chunk_overlap : Nat
  deriving DecidableEq, Repr

/-- Clamp a Python slice endpoint into `[0, len]`: negative indices count
from the end of the list. -/
def pyIndex (len : Nat) (i : Int) : Nat :=
  if i < 0 then (max 0 ((len : Int) + i)).toNat else min i.toNat len

/-- Python slice `xs[i:j]`. -/
def pySlice {α : Type} (xs : List α) (i j : Int) : List α :=
  (xs.take (pyIndex xs.length j)).drop (pyIndex xs.length i)

/-- The `while start < len(words)` loop of `PDFProcessor.chunk_text`
(main.py lines 91-103).  `start` is an integer exactly as in Python
(`start += self.chunk_size - self.chunk_overlap` may not increase it);
the fuel bounds the number of iterations, and `words.length + 1` is
sufficient whenever the step `chunk_size - chunk_overlap` is positive. -/
def chunkLoop (size overlap : Nat) (words : List String) (page : Nat) :
    Nat → Int → Nat → List Chunk
  | 0, _, _ => []
  | fuel + 1, start, cid =>
    if start < (words.length : Int) then
      ⟨String.intercalate " " (pySlice words start (start + (size : Int))), page, cid⟩ ::
        chunkLoop size overlap words page fuel (start + ((size : Int) - (overlap : Int))) (cid + 1)
    else []

/-- `PDFProcessor.chunk_text` (main.py lines 80-105): split into
whitespace-delimited words, return `[]` for an empty word list, else
run the overlapping-window loop starting at `start = 0` with chunk ids
from `start_chunk_id`. -/
def chunk_text (size overlap : Nat) (text : String) (page_num start_chunk_id : Nat) :
    List Chunk :=
  let words := pySplit text
  if words.isEmpty then []
  else chunkLoop size overlap words page_num (words.length + 1) 0 start_chunk_id

/-- The page loop of `PDFProcessor.process_pdf` (main.py lines 110-116):
chunk each page, threading the global `chunk_counter`. -/
def processPages (size overlap : Nat) : List (Nat × String) → Nat → List Chunk
  | [], _ => []
  | (page_num, text) :: rest, counter =>
    let page_chunks := chunk_text size overlap text page_num counter
    page_chunks ++ processPages size overlap rest (counter + page_chunks.length)

/-- `PDFProcessor.process_pdf` (main.py lines 107-118), taking the
already-extracted `(page_number, cleaned text)` sequence (PDF byte
decoding is an external collaborator). -/
def process_pdf (size overlap : Nat) (pages : List (Nat × String)) : List Chunk :=
  processPages size overlap pages 0

/-- One execution of `start += self.chunk_size - self.chunk_overlap`
(main.py line 103). -/
def nextStart (size overlap : Nat) (s : Int) : Int :=
  s + ((size : Int) - (overlap : Int))

/-- The loop variable `start` after `n` iterations (it begins at 0,
main.py line 89). -/
def startIter (size overlap : Nat) (n : Nat) : Int :=
  (nextStart size overlap)^[n] 0

/-! ### The windowing algorithm as the spec states it (spec section 4.1)

Used to settle the refinement claim C7: `windowsSpec` is written from
the spec's words ("slide a window of `window` tokens across the token
sequence with step `window - overlap`; the last window may be shorter;
empty token sequences produce zero chunks"), to be compared with the
loop translated from the source. -/

/-- Fuel-indexed window slide: take `window` tokens, advance by `step`.
With `step ≥ 1`, fuel `tokens.length + 1` is sufficient. -/
def windowsSpecF (window step : Nat) : Nat → List String → List (List String)
  | 0, _ => []
  | fuel + 1, ts =>
    if ts.isEmpty then []
    else ts.take window :: windowsSpecF window step fuel (ts.drop step)

/-- The spec's sliding-window decomposition of a token sequence. -/
def windowsSpec (window step : Nat) (tokens : List String) : List (List String) :=
  windowsSpecF window step (tokens.length + 1) tokens

/-! ### `VectorStore.search` (main.py lines 121-164)

Embeddings live in the external sentence-transformer model, and the
nearest-neighbour computation lives in FAISS; the wrapper code's
behaviour depends on two documented facts about `IndexFlat.search`:
it always returns exactly `top_k` (index, score) pairs per query, and
when the index holds fewer than `top_k` vectors the missing entries
are padded with index label `-1`.  The ranking of the real entries is
embedding-dependent and is therefore an oracle parameter (`rank`,
`scores`, `padScore`). -/

/-- Vector store state: `built = false` models `self.index is None`. -/
structure VectorStore where
  built : Bool
  chunks : List Chunk
  deriving DecidableEq, Repr

/-- Python list subscript `l[i]` including negative indexing
(`l[-1]` is the last element).  Out-of-range access would raise
`IndexError` in Python; it is mapped to a default chunk and is not
exercised by any claim. -/
def pyGet (l : List Chunk) (i : Int) : Chunk :=
  if i < 0 then l.getD (l.length - (-i).toNat) ⟨"", 0, 0⟩
  else l.getD i.toNat ⟨"", 0, 0⟩

/-- The index labels FAISS returns for one query against `n` stored
vectors with `top_k = k`: the ranked real hits (`rank`, a
score-descending ordering of `0..n-1` supplied by the embedding
oracle) truncated to `min k n`, padded to length `k` with `-1`. -/
def faissLabels (n k : Nat) (rank : List Nat) : List Int :=
  ((rank.take (min k n)).map Int.ofNat) ++ List.replicate (k - min k n) (-1)

/-- The matching scores: real scores from the oracle, padding entries
carry FAISS's sentinel score `padScore`. -/
def faissScores (n k : Nat) (scores : List ℚ) (padScore : ℚ) : List ℚ :=
  scores.take (min k n) ++ List.replicate (k - min k n) padScore

/-- `VectorStore.search` (main.py lines 147-164): return `[]` if the
index was never built; otherwise zip FAISS's labels and scores and keep
every pair whose label satisfies `idx < len(self.chunks)`, resolving
the chunk by Python subscript.  (Note: the guard admits the `-1`
padding labels, and `chunks[-1]` is the **last** chunk.) -/
def VectorStore.search (vs : VectorStore) (top_k : Nat) (rank : List Nat)
    (scores : List ℚ) (padScore : ℚ) : List (Chunk × ℚ) :=
  if vs.built = false then []
  else
    let n := vs.chunks.length
    ((faissLabels n top_k rank).zip (faissScores n top_k scores padScore)).filterMap
      fun p => if p.1 < (n : Int) then some (pyGet vs.chunks p.1, p.2) else none

/-! ### Conversation turns (main.py lines 374-375) -/

/-- The `role` field of a chat-history entry. -/
inductive Role
  | user
  | assistant
  deriving DecidableEq, Repr

/-- One entry of `self.chat_history`:
`{"role": ..., "content": ...}`. -/
structure Turn where
  role : Role
  content : String
  deriving DecidableEq, Repr

/-! ### Relevance gate & answer composer (`LLMInterface`, main.py 167-306) -/

/-- The canonical refusal string (main.py lines 296, 301, 359). -/
def refusalString : String := "Not found in the document."

/-- Python string slice `s[:n]`: the first `n` characters (code
points). -/
def strTake (s : String) (n : Nat) : String := String.mk (s.data.take n)

/-- The snippet taken from the top chunk (main.py line 305): the first
200 characters, with `"..."` appended exactly when the text is longer
than 200 characters. -/
def snippetOf (c : Chunk) : String :=
  if c.text.length > 200 then strTake c.text 200 ++ "..." else c.text

/-- `LLMInterface._fallback_answer` (main.py lines 293-306): refuse on
an empty result list; refuse when the top score is below `0.4`;
otherwise return `"{citation} {snippet}"` for the top chunk. -/
def fallback_answer (context_chunks : List (Chunk × ℚ)) : String :=
  match context_chunks with
  | [] => refusalString
  | (top_chunk, score) :: _ =>
    if score < (2 : ℚ) / 5 then refusalString
    else top_chunk.get_citation ++ " " ++ snippetOf top_chunk

/-- Which generation backend `LLMInterface.__init__` selected for the
session (main.py lines 170-207): Gemini, OpenAI, or the deterministic
fallback. -/
inductive Backend
  | gemini
  | openai
  | fallback
  deriving DecidableEq, Repr

/-- `LLMInterface.generate_answer` (main.py lines 209-291).  The hosted
model call is the oracle `gen`; `none` models the call raising any
exception (quota, network, malformed response — all caught by the
bare `except` clauses), `some t` a successful response whose text is
then stripped.  The `Bool` records whether the external collaborator
was invoked.  On failure both hosted paths return
`self._fallback_answer(context_chunks)`. -/
def generate_answer (backend : Backend)
    (gen : String → List (Chunk × ℚ) → List Turn → Option String)
    (query : String) (context_chunks : List (Chunk × ℚ)) (chat_history : List Turn) :
    String × Bool :=
  match backend with
  | .gemini =>
    match gen query context_chunks chat_history with
    | some t => (pyStrip t, true)
    | none => (fallback_answer context_chunks, true)
  | .openai =>
    match gen query context_chunks chat_history with
    | some t => (pyStrip t, true)
    | none => (fallback_answer context_chunks, true)
  | .fallback => (fallback_answer context_chunks, false)

/-! ### Conversation orchestrator (`RAGSystem`, main.py lines 309-411) -/

/-- The result of one `answer_question` call: the returned answer, the
chat history afterwards, and whether the external generation
collaborator was invoked during the call. -/
structure AskResult where
  answer : String
  history : List Turn
  genInvoked : Bool
  deriving DecidableEq, Repr

/-- `RAGSystem.answer_question` (main.py lines 335-377), parametrised by
the value `results` that `self.vector_store.search` returned for this
query (query augmentation, main.py lines 339-347, only alters the
search argument and is upstream of `results`).  If `results` is empty
the refusal is returned immediately — before `generate_answer` and
before the history update; otherwise the answer is generated and
`{user, query}` then `{assistant, answer}` are appended to history. -/
def answer_question (backend : Backend)
    (gen : String → List (Chunk × ℚ) → List Turn → Option String)
    (results : List (Chunk × ℚ)) (history : List Turn) (query : String) : AskResult :=
  if results.isEmpty then ⟨refusalString, history, false⟩
  else
    let g := generate_answer backend gen query results history
    ⟨g.1, history ++ [⟨Role.user, query⟩, ⟨Role.assistant, g.1⟩], g.2⟩

/-- A sequence of `ask` calls: each element is the query together with
the result list its retrieval produced; the history threads through. -/
def runAsks (backend : Backend)
    (gen : String → List (Chunk × ℚ) → List Turn → Option String) :
    List (String × List (Chunk × ℚ)) → List Turn → List Turn
  | [], h => h
  | (q, res) :: rest, h =>
    runAsks backend gen rest (answer_question backend gen res h q).history

/-- The history alternates user/assistant turns, starting with user, and
has even length. -/
def alternatingUA : List Turn → Bool
  | [] => true
  | [_] => false
  | u :: a :: rest =>
    decide (u.role = Role.user) && decide (a.role = Role.assistant) && alternatingUA rest

/-! ### `VectorStore.build_index` and `RAGSystem.__init__`
(main.py lines 131-145 and 312-333)

`build_index` computes `embeddings = self.model.encode(texts)` and then
reads `embeddings.shape[1]`.  `SentenceTransformer.encode` on an empty
input list returns `np.asarray([])`, an array of shape `(0,)`, so for
zero chunks the access `embeddings.shape[1]` raises `IndexError` and
`RAGSystem.__init__` propagates it: construction fails and no session
object exists.  For a non-empty chunk list the embedding matrix has a
second dimension and construction succeeds. -/

/-- Index state after a successful build. -/
structure BuiltIndex where
  dimension : Nat
  vectors : List (List ℚ)
  deriving DecidableEq, Repr

/-- `VectorStore.build_index` (main.py lines 131-145) with the external
embedding model as oracle `embed`. -/
def build_index (embed : String → List ℚ) (chunks : List Chunk) :
    Except String BuiltIndex :=
  let embeddings := chunks.map fun c => embed c.text
  match embeddings with
  | [] => .error "tuple index out of range"
  | v :: vs => .ok ⟨v.length, v :: vs⟩

/-- Session state reachable by `ask` after a successful
`RAGSystem.__init__`. -/
structure RAGState where
  chunks : List Chunk
  index : BuiltIndex
  top_k : Nat
  chat_history : List Turn
  deriving DecidableEq, Repr

/-- `RAGSystem.__init__` (main.py lines 312-333): process the document
into chunks, then build the index; any exception aborts construction,
so an `Except.error` means no session state exists. -/
def ragInit (embed : String → List ℚ) (size overlap top_k : Nat)
    (pages : List (Nat × String)) : Except String RAGState :=
  let chunks := process_pdf size overlap pages
  (build_index embed chunks).map fun idx => ⟨chunks, idx, top_k, []⟩

/-! ## Theorems -/

/-- Claim C4: whenever `search` returned an empty Scored Result sequence,
`answer_question` returns the canonical refusal string byte-for-byte,
leaves the chat history untouched, and never invokes the external
generation collaborator for that query. -/
theorem empty_retrieval_refuses_without_generation
    (backend : Backend) (gen : String → List (Chunk × ℚ) → List Turn → Option String)
    (history : List Turn) (query : String) :
    answer_question backend gen [] history query =
      ⟨"Not found in the document.", history, false⟩ := by
  simp [answer_question, refusalString]

/-- Claim C9: if the external generation collaborator is invoked and fails
with any exception (modelled by the oracle returning `none`), the answer
path falls back to the deterministic composer on the same ranked
results; being a total function, `generate_answer` returns a string and
never propagates the failure. -/
theorem generation_failure_falls_back
    (backend : Backend) (gen : String → List (Chunk × ℚ) → List Turn → Option String)
    (query : String) (results : List (Chunk × ℚ)) (history : List Turn)
    (hfail : gen query results history = none) :
    (generate_answer backend gen query results history).1 = fallback_answer results := by
  cases backend <;> simp [generate_answer, hfail]

/-- Witness for `generation_failure_falls_back` at a concrete failing
oracle, backend and result list. -/
theorem generation_failure_falls_back_witness :
    (generate_answer Backend.gemini (fun _ _ _ => none) "q"
        [(⟨"w", 1, 0⟩, 1)] []).1 = fallback_answer [(⟨"w", 1, 0⟩, 1)] :=
  generation_failure_falls_back Backend.gemini (fun _ _ _ => none) "q"
    [(⟨"w", 1, 0⟩, 1)] [] rfl

/-- Claim C2 (code bug): with one stored chunk and `top_k = 2`, FAISS pads
its answer with the label `-1`; the guard `idx < len(self.chunks)`
admits `-1`, and Python's `chunks[-1]` is the last chunk, so `search`
returns the single chunk twice instead of exactly once.  Searching an
unbuilt index does return `[]` as claimed. -/
theorem search_padding_duplicates_last_chunk :
    (VectorStore.mk true [⟨"only", 1, 0⟩]).search 2 [0] [1] (-1)
        = [(⟨"only", 1, 0⟩, 1), (⟨"only", 1, 0⟩, -1)]
      ∧ ((VectorStore.mk true [⟨"only", 1, 0⟩]).search 2 [0] [1] (-1)).length ≠ 1
      ∧ (VectorStore.mk false []).search 5 [] [] (-1) = [] := by
  decide

/-- Claim C1 (counterexample): one completed `ask` call whose retrieval
returned no results leaves the history empty — length `0`, not `2·1` —
because `answer_question` returns the refusal before the history
update. -/
theorem ask_empty_retrieval_skips_history_cex :
    runAsks Backend.fallback (fun _ _ _ => none) [("q", [])] [] = ([] : List Turn)
      ∧ (runAsks Backend.fallback (fun _ _ _ => none) [("q", [])] []).length ≠ 2 * 1 := by
  decide

/-- Appending one user/assistant pair preserves the alternation
invariant. -/
theorem alternatingUA_append_pair (h : List Turn) (q a : String)
    (hh : alternatingUA h = true) :
    alternatingUA (h ++ [⟨Role.user, q⟩, ⟨Role.assistant, a⟩]) = true := by
  induction h using alternatingUA.induct with
  | case1 => simp [alternatingUA]
  | case2 t => simp [alternatingUA] at hh
  | case3 u a' rest ih =>
    simp only [alternatingUA, Bool.and_eq_true, decide_eq_true_eq] at hh
    simp only [List.cons_append, alternatingUA, Bool.and_eq_true, decide_eq_true_eq]
    exact ⟨hh.1, ih hh.2⟩

/-- Every `ask` whose retrieval is non-empty appends exactly one
user/assistant pair, so iterating over a history `h` adds `2N` turns
and preserves alternation. -/
theorem runAsks_length_alternating (backend : Backend)
    (gen : String → List (Chunk × ℚ) → List Turn → Option String)
    (asks : List (String × List (Chunk × ℚ))) :
    ∀ h : List Turn, (∀ p ∈ asks, p.2 ≠ []) →
      (runAsks backend gen asks h).length = h.length + 2 * asks.length
        ∧ (alternatingUA h = true → alternatingUA (runAsks backend gen asks h) = true) := by
  induction asks with
  | nil => intro h _; simp [runAsks]
  | cons p rest ih =>
    intro h hne
    obtain ⟨q, res⟩ := p
    have hres : res ≠ [] := hne (q, res) (List.mem_cons_self _ _)
    have hstep : (answer_question backend gen res h q).history
        = h ++ [⟨Role.user, q⟩,
                ⟨Role.assistant, (generate_answer backend gen q res h).1⟩] := by
      simp [answer_question, List.isEmpty_iff, hres]
    have hrest : ∀ p ∈ rest, p.2 ≠ [] := fun p hp => hne p (List.mem_cons_of_mem _ hp)
    have := ih ((answer_question backend gen res h q).history) hrest
    constructor
    · calc (runAsks backend gen ((q, res) :: rest) h).length
          = (answer_question backend gen res h q).history.length + 2 * rest.length := by
            simpa [runAsks] using this.1
        _ = h.length + 2 * ((q, res) :: rest).length := by
            simp [hstep]; ring
    · intro hh
      have halt : alternatingUA (answer_question backend gen res h q).history = true := by
        rw [hstep]; exact alternatingUA_append_pair h _ _ hh
      simpa [runAsks] using this.2 halt

/-- Claim C1 (amended): `ask` appends `{user, query}` then
`{assistant, answer}` for every completed call whose retrieval was
non-empty — including low-relevance refusals — but a call whose
retrieval returned no results appends nothing; hence after `N`
completed `ask` calls with no intervening `clear`, all of whose
retrievals were non-empty, the history has length exactly `2N` and
alternates user/assistant. -/
theorem ask_history_two_n_alternating (backend : Backend)
    (gen : String → List (Chunk × ℚ) → List Turn → Option String)
    (asks : List (String × List (Chunk × ℚ)))
    (hne : ∀ p ∈ asks, p.2 ≠ []) :
    (runAsks backend gen asks []).length = 2 * asks.length
      ∧ alternatingUA (runAsks backend gen asks []) = true := by
  have := runAsks_length_alternating backend gen asks [] hne
  exact ⟨by simpa using this.1, this.2 (by simp [alternatingUA])⟩

/-- Witness for `ask_history_two_n_alternating`: two concrete `ask`
calls with non-empty retrieval (the second a low-relevance refusal)
give history length 4, alternating. -/
theorem ask_history_two_n_alternating_witness :
    (runAsks Backend.fallback (fun _ _ _ => none)
        [("q1", [(⟨"w", 1, 0⟩, 1)]), ("q2", [(⟨"w", 1, 0⟩, (1 : ℚ) / 10)])] []).length
        = 2 * 2
      ∧ alternatingUA (runAsks Backend.fallback (fun _ _ _ => none)
          [("q1", [(⟨"w", 1, 0⟩, 1)]), ("q2", [(⟨"w", 1, 0⟩, (1 : ℚ) / 10)])] []) = true :=
  ask_history_two_n_alternating Backend.fallback (fun _ _ _ => none)
    [("q1", [(⟨"w", 1, 0⟩, 1)]), ("q2", [(⟨"w", 1, 0⟩, (1 : ℚ) / 10)])] (by decide)

/-- Claim C5: when chunking yields zero chunks, `RAGSystem.__init__`
fails (the embedding matrix for zero texts has shape `(0,)`, so the
`embeddings.shape[1]` access raises) and the failure propagates to the
caller: the result is an `Except.error`, so no session state exists
for `ask` to reach. -/
theorem ragInit_zero_chunks_fails (embed : String → List ℚ)
    (size overlap top_k : Nat) (pages : List (Nat × String))
    (hzero : process_pdf size overlap pages = []) :
    ragInit embed size overlap top_k pages = .error "tuple index out of range" := by
  simp [ragInit, hzero, build_index, Except.map]

/-- Witness for `ragInit_zero_chunks_fails`: a one-page document whose
text is all whitespace chunks to nothing, and construction fails. -/
theorem ragInit_zero_chunks_fails_witness :
    process_pdf 2 0 [(1, " ")] = []
      ∧ ragInit (fun _ => []) 2 0 5 [(1, " ")] = .error "tuple index out of range" :=
  ⟨by decide, ragInit_zero_chunks_fails (fun _ => []) 2 0 5 [(1, " ")] (by decide)⟩

/-- The loop variable after `n` iterations is `n · (size − overlap)`
(integer arithmetic, as in Python). -/
theorem startIter_eq (size overlap : Nat) (n : Nat) :
    startIter size overlap n = n * ((size : Int) - (overlap : Int)) := by
  induction n with
  | zero => simp [startIter]
  | succ k ih =>
    rw [startIter, Function.iterate_succ_apply'] at *
    rw [ih]
    simp [nextStart]
    ring

/-- Claim C10: the `chunk_text` loop terminates exactly when the step
`chunk_size - chunk_overlap` is positive: with `overlap < size` the
loop variable eventually reaches the word count (so the `while` guard
fails), while with `size ≤ overlap` and a non-empty word list the loop
variable never passes the word count — the Python loop runs forever —
and `PDFProcessor.__init__` stores arbitrary `(size, overlap)` values
without validating the precondition. -/
theorem chunk_loop_termination_dichotomy (size overlap : Nat) (words : List String) :
    (overlap < size → ∃ n : Nat, (words.length : Int) ≤ startIter size overlap n)
      ∧ (size ≤ overlap → words ≠ [] →
          ∀ n : Nat, startIter size overlap n < (words.length : Int))
      ∧ (PDFProcessor.mk size overlap).chunk_size = size
      ∧ (PDFProcessor.mk size overlap).chunk_overlap = overlap := by
  refine ⟨?_, ?_, rfl, rfl⟩
  · intro hlt
    refine ⟨words.length, ?_⟩
    rw [startIter_eq]
    have hstep : (1 : Int) ≤ (size : Int) - (overlap : Int) := by
      omega
    calc (words.length : Int) = (words.length : Int) * 1 := by ring
      _ ≤ (words.length : Int) * ((size : Int) - (overlap : Int)) := by
          apply mul_le_mul_of_nonneg_left hstep
          positivity
  · intro hle hne n
    rw [startIter_eq]
    have hstep : (size : Int) - (overlap : Int) ≤ 0 := by omega
    have hlen : (1 : Int) ≤ (words.length : Int) := by
      have := List.length_pos.mpr hne
      omega
    have : (n : Int) * ((size : Int) - (overlap : Int)) ≤ 0 :=
      mul_nonpos_of_nonneg_of_nonpos (by positivity) hstep
    omega

/-- Witness for `chunk_loop_termination_dichotomy`: with `size = 2`,
`overlap = 1` the loop over three words terminates, and with
`size = 1`, `overlap = 2` it never advances past a two-word list. -/
theorem chunk_loop_termination_dichotomy_witness :
    (∃ n : Nat, ((["a", "b", "c"] : List String).length : Int) ≤ startIter 2 1 n)
      ∧ startIter 1 2 5 < ((["a", "b"] : List String).length : Int) :=
  ⟨(chunk_loop_termination_dichotomy 2 1 ["a", "b", "c"]).1 (by omega),
   (chunk_loop_termination_dichotomy 1 2 ["a", "b"]).2.1 (by omega) (by decide) 5⟩

/-- The ids assigned by the `chunk_text` loop are consecutive, starting
at the `start_chunk_id` it was seeded with. -/
theorem chunkLoop_ids (size overlap : Nat) (words : List String) (page : Nat) :
    ∀ (fuel : Nat) (start : Int) (cid : Nat),
      (chunkLoop size overlap words page fuel start cid).map Chunk.chunk_id
        = List.range' cid (chunkLoop size overlap words page fuel start cid).length := by
  intro fuel
  induction fuel with
  | zero => intro start cid; simp [chunkLoop]
  | succ k ih =>
    intro start cid
    by_cases hlt : start < (words.length : Int)
    · simp only [chunkLoop, if_pos hlt, List.map_cons, List.length_cons, List.range'_succ]
      rw [ih]
    · simp [chunkLoop, if_neg hlt]

/-- `chunk_text` assigns consecutive ids from its seed. -/
theorem chunk_text_ids (size overlap : Nat) (text : String) (page cid : Nat) :
    (chunk_text size overlap text page cid).map Chunk.chunk_id
      = List.range' cid (chunk_text size overlap text page cid).length := by
  unfold chunk_text
  by_cases h : (pySplit text).isEmpty
  · simp [h]
  · simp only [h, Bool.false_eq_true, if_false]
    exact chunkLoop_ids size overlap (pySplit text) page _ 0 cid

/-- The page loop threads the counter so that ids stay consecutive
across pages. -/
theorem processPages_ids (size overlap : Nat) :
    ∀ (pages : List (Nat × String)) (counter : Nat),
      (processPages size overlap pages counter).map Chunk.chunk_id
        = List.range' counter (processPages size overlap pages counter).length := by
  intro pages
  induction pages with
  | nil => intro counter; simp [processPages]
  | cons p rest ih =>
    intro counter
    obtain ⟨page_num, text⟩ := p
    simp only [processPages, List.map_append, List.length_append]
    rw [chunk_text_ids, ih]
    rw [List.range'_append_1]
    congr 1
    omega

/-- Claim C6: under the chunker precondition `overlap < size` (the
regime in which the Python loop terminates), the `chunk_index` values
over the whole document are exactly `0, 1, 2, …` in production order —
strictly increasing, contiguous from 0, numbered globally across
pages, with chunkless pages leaving the numbering of later pages
intact. -/
theorem process_pdf_ids_contiguous (size overlap : Nat)
    (pages : List (Nat × String)) (_hso : overlap < size) :
    (process_pdf size overlap pages).map Chunk.chunk_id
      = List.range (process_pdf size overlap pages).length := by
  rw [List.range_eq_range']
  exact processPages_ids size overlap pages 0

/-- Witness for `process_pdf_ids_contiguous`: a three-page document
whose middle page yields no chunks still numbers its chunks 0, 1, 2. -/
theorem process_pdf_ids_contiguous_witness :
    (process_pdf 2 0 [(1, "a b c"), (2, " "), (3, "d")]).map Chunk.chunk_id
      = List.range (process_pdf 2 0 [(1, "a b c"), (2, " "), (3, "d")]).length :=
  process_pdf_ids_contiguous 2 0 [(1, "a b c"), (2, " "), (3, "d")] (by omega)

/-- `pyIndex` on a non-negative index clamps to the length. -/
theorem pyIndex_ofNat (len s : Nat) : pyIndex len (s : Int) = min s len := by
  unfold pyIndex
  rw [if_neg (by omega)]
  simp

/-- `take` beyond the length saturates, so the length clamp can go. -/
theorem take_min_length {α : Type} (xs : List α) (n : Nat) :
    xs.take (min n xs.length) = xs.take n := by
  rcases Nat.le_total n xs.length with h | h
  · rw [Nat.min_eq_left h]
  · rw [Nat.min_eq_right h, List.take_length, List.take_of_length_le h]

/-- A Python slice `words[start : start + size]` with non-negative
bounds is `take size` after `drop start`. -/
theorem pySlice_nat {α : Type} (xs : List α) (s m : Nat) :
    pySlice xs (s : Int) ((s : Int) + (m : Int)) = (xs.drop s).take m := by
  have hcast : (s : Int) + (m : Int) = ((s + m : Nat) : Int) := by push_cast; ring
  rw [hcast]
  unfold pySlice
  rw [pyIndex_ofNat, pyIndex_ofNat, take_min_length]
  rcases Nat.le_total s xs.length with h | h
  · rw [Nat.min_eq_left h, ← List.take_drop]
  · rw [Nat.min_eq_right h]
    rw [List.drop_eq_nil_of_le (by rw [List.length_take]; omega)]
    rw [List.drop_eq_nil_of_le h, List.take_nil]

/-- The translated `while` loop computes exactly the spec's sliding
windows: at loop variable `s` the remaining windows are those of
`words.drop s`, window `size` and step `size - overlap`, provided the
step is positive. -/
theorem chunkLoop_eq_windows (size overlap : Nat) (hso : overlap < size)
    (words : List String) (page : Nat) :
    ∀ (fuel s cid : Nat),
      (chunkLoop size overlap words page fuel (s : Int) cid).map Chunk.text
        = (windowsSpecF size (size - overlap) fuel (words.drop s)).map
            (String.intercalate " ") := by
  intro fuel
  induction fuel with
  | zero => intro s cid; simp [chunkLoop, windowsSpecF]
  | succ k ih =>
    intro s cid
    by_cases hlt : s < words.length
    · have hlt' : (s : Int) < (words.length : Int) := by exact_mod_cast hlt
      have hne : ((words.drop s).isEmpty = true) = False := by
        simp [List.isEmpty_iff, List.drop_eq_nil_iff]; omega
      simp only [chunkLoop, if_pos hlt', windowsSpecF, hne, if_false, List.map_cons]
      congr 1
      · rw [pySlice_nat]
      · have hcast : (s : Int) + ((size : Int) - (overlap : Int))
            = ((s + (size - overlap) : Nat) : Int) := by
          push_cast [Nat.cast_sub hso.le]; ring
        rw [hcast, ih (s + (size - overlap)) (cid + 1), List.drop_drop]
    · have hle : words.length ≤ s := by omega
      have hlt' : ¬ ((s : Int) < (words.length : Int)) := by
        omega
      have hnil : words.drop s = [] := List.drop_eq_nil_of_le hle
      simp [chunkLoop, if_neg hlt', windowsSpecF, hnil]; omega

/-- Claim C7: for `window > overlap ≥ 0`, `chunk_text` splits the
cleaned page text into whitespace-delimited tokens and produces
exactly the spec's sliding windows — window `size`, step
`size - overlap`, tokens rejoined with single spaces, last window
possibly short, and an empty token sequence yields zero chunks. -/
theorem chunk_text_refines_window_spec (size overlap : Nat) (hso : overlap < size)
    (text : String) (page cid : Nat) :
    (chunk_text size overlap text page cid).map Chunk.text
        = (windowsSpec size (size - overlap) (pySplit text)).map (String.intercalate " ")
      ∧ (pySplit text = [] → chunk_text size overlap text page cid = []) := by
  constructor
  · unfold chunk_text windowsSpec
    by_cases h : (pySplit text).isEmpty
    · have h' : pySplit text = [] := by simpa [List.isEmpty_iff] using h
      simp [h, h', windowsSpecF]
    · simp only [h, Bool.false_eq_true, if_false]
      have := chunkLoop_eq_windows size overlap hso (pySplit text) page
        ((pySplit text).length + 1) 0 cid
      simpa using this
  · intro h
    simp [chunk_text, h]

/-- Witness for `chunk_text_refines_window_spec`: seven tokens, window
3, overlap 1; and a whitespace-only page yields zero chunks. -/
theorem chunk_text_refines_window_spec_witness :
    (chunk_text 3 1 "a b c d e f g" 1 0).map Chunk.text
        = (windowsSpec 3 (3 - 1) (pySplit "a b c d e f g")).map (String.intercalate " ")
      ∧ chunk_text 3 1 " " 1 0 = [] :=
  ⟨(chunk_text_refines_window_spec 3 1 (by omega) "a b c d e f g" 1 0).1,
   (chunk_text_refines_window_spec 3 1 (by omega) " " 1 0).2 (by decide)⟩

/-- Single-digit renderings are digit characters. -/
theorem isDigitCh_digitCh : ∀ n : Nat, n < 10 → isDigitCh (digitCh n) = true := by
  decide

/-- Every character of a fuelled decimal rendering is a digit. -/
theorem natToDecF_digits :
    ∀ (fuel n : Nat), n < fuel → ∀ c ∈ natToDecF fuel n, isDigitCh c = true := by
  intro fuel
  induction fuel with
  | zero => intro n hn; omega
  | succ k ih =>
    intro n hn c hc
    by_cases h10 : n < 10
    · simp only [natToDecF, if_pos h10, List.mem_singleton] at hc
      subst hc
      exact isDigitCh_digitCh n h10
    · simp only [natToDecF, if_neg h10, List.mem_append, List.mem_singleton] at hc
      rcases hc with hc | hc
      · have hdiv : n / 10 < n := Nat.div_lt_self (by omega) (by omega)
        exact ih (n / 10) (by omega) c hc
      · subst hc
        exact isDigitCh_digitCh (n % 10) (Nat.mod_lt n (by omega))

/-- Every character of `natToDec n` is a digit. -/
theorem natToDec_digits (n : Nat) : ∀ c ∈ natToDec n, isDigitCh c = true :=
  natToDecF_digits (n + 1) n (Nat.lt_succ_self n)

/-- A decimal rendering is never empty. -/
theorem natToDec_ne_nil (n : Nat) : natToDec n ≠ [] := by
  unfold natToDec natToDecF
  split <;> simp

/-- A digit character is not `'['`. -/
theorem ne_bracket_of_digit {c : Char} (h : isDigitCh c = true) : c ≠ '[' := by
  intro he
  subst he
  exact absurd h (by decide)

/-- `dropWhile` runs through a block of satisfying elements and stops at
the first failing one. -/
theorem dropWhile_append_all {p : Char → Bool} :
    ∀ (l₁ : List Char) (c : Char) (l₂ : List Char),
      (∀ x ∈ l₁, p x = true) → p c = false →
      (l₁ ++ c :: l₂).dropWhile p = c :: l₂ := by
  intro l₁
  induction l₁ with
  | nil =>
    intro c l₂ _ hc
    simp [List.dropWhile, hc]
  | cons a t ih =>
    intro c l₂ hall hc
    have ha : p a = true := hall a (List.mem_cons_self a t)
    simp only [List.cons_append, List.dropWhile, ha]
    exact ih c l₂ (fun x hx => hall x (List.mem_cons_of_mem a hx)) hc

/-- `munchDigits` consumes exactly a non-empty digit block followed by a
non-digit. -/
theorem munchDigits_exact (ds : List Char) (c : Char) (rest : List Char)
    (hne : ds ≠ []) (hds : ∀ x ∈ ds, isDigitCh x = true) (hc : isDigitCh c = false) :
    munchDigits (ds ++ c :: rest) = some (c :: rest) := by
  cases ds with
  | nil => exact absurd rfl hne
  | cons d t =>
    have hd : isDigitCh d = true := hds d (List.mem_cons_self d t)
    simp only [List.cons_append, munchDigits, hd, if_pos]
    rw [dropWhile_append_all t c rest (fun x hx => hds x (List.mem_cons_of_mem d hx)) hc]

/-- A literal matches itself followed by anything. -/
theorem matchLit_self_append : ∀ (l rest : List Char), matchLit l (l ++ rest) = some rest := by
  intro l
  induction l with
  | nil => intro rest; simp [matchLit]
  | cons a t ih => intro rest; simp [matchLit, ih]

/-- `matchCitation` succeeds on a rendered citation token and consumes
exactly it. -/
theorem matchCitation_exact (p i : Nat) (rest : List Char) :
    matchCitation ('[' :: 'p' ::
        (natToDec p ++ ':' :: 'c' :: (natToDec i ++ ']' :: rest))) = some rest := by
  unfold matchCitation
  have h0 : ('[' :: 'p' :: (natToDec p ++ ':' :: 'c' :: (natToDec i ++ ']' :: rest)))
      = ['[', 'p'] ++ (natToDec p ++ ':' :: 'c' :: (natToDec i ++ ']' :: rest)) := rfl
  rw [h0, matchLit_self_append, Option.some_bind]
  rw [munchDigits_exact (natToDec p) ':' ('c' :: (natToDec i ++ ']' :: rest))
        (natToDec_ne_nil p) (natToDec_digits p) (by decide), Option.some_bind]
  have h1 : (':' :: 'c' :: (natToDec i ++ ']' :: rest))
      = [':', 'c'] ++ (natToDec i ++ ']' :: rest) := rfl
  rw [h1, matchLit_self_append, Option.some_bind]
  rw [munchDigits_exact (natToDec i) ']' rest
        (natToDec_ne_nil i) (natToDec_digits i) (by decide), Option.some_bind]
  have h2 : (']' :: rest) = [']'] ++ rest := rfl
  rw [h2, matchLit_self_append]

/-- A citation token can only start at a `'['`. -/
theorem matchCitation_head_ne {c : Char} (cs : List Char) (h : c ≠ '[') :
    matchCitation (c :: cs) = none := by
  unfold matchCitation
  simp [matchLit, h]

/-- Bracket-free prefixes contribute nothing to the citation count. -/
theorem citationCount_lead :
    ∀ (lead tail : List Char), (∀ c ∈ lead, c ≠ '[') →
      citationCount (lead ++ tail) = citationCount tail := by
  intro lead
  induction lead with
  | nil => intro tail _; simp
  | cons a t ih =>
    intro tail h
    have ha : a ≠ '[' := h a (List.mem_cons_self a t)
    simp only [List.cons_append, citationCount, matchCitation_head_ne _ ha,
      Option.isSome_none, Bool.false_eq_true, if_false, Nat.zero_add]
    exact ih tail (fun c hc => h c (List.mem_cons_of_mem a hc))

/-- A citation token followed by a space and citation-free text contains
exactly one citation token. -/
theorem citationCount_token_space (p i : Nat) (S : List Char)
    (hS : citationCount S = 0) :
    citationCount ('[' :: 'p' ::
        (natToDec p ++ ':' :: 'c' :: (natToDec i ++ ']' :: ' ' :: S))) = 1 := by
  have hlead : ∀ c ∈ ('p' :: (natToDec p ++ ':' :: 'c' :: (natToDec i ++ [']', ' ']))),
      c ≠ '[' := by
    intro c hc
    simp only [List.mem_cons, List.mem_append, List.mem_singleton] at hc
    rcases hc with rfl | hc | rfl | rfl | hc | rfl | rfl | hc
    · decide
    · exact ne_bracket_of_digit (natToDec_digits p c hc)
    · decide
    · decide
    · exact ne_bracket_of_digit (natToDec_digits i c hc)
    · decide
    · decide
    · exact absurd hc (List.not_mem_nil c)
  have hmatch := matchCitation_exact p i (' ' :: S)
  have hstep : citationCount ('[' :: 'p' ::
        (natToDec p ++ ':' :: 'c' :: (natToDec i ++ ']' :: ' ' :: S)))
      = (if (matchCitation ('[' :: 'p' ::
            (natToDec p ++ ':' :: 'c' :: (natToDec i ++ ']' :: ' ' :: S)))).isSome
          then 1 else 0)
        + citationCount ('p' ::
            (natToDec p ++ ':' :: 'c' :: (natToDec i ++ ']' :: ' ' :: S))) := rfl
  have hsplit : ('p' :: (natToDec p ++ ':' :: 'c' :: (natToDec i ++ ']' :: ' ' :: S)))
      = ('p' :: (natToDec p ++ ':' :: 'c' :: (natToDec i ++ [']', ' ']))) ++ S := by
    simp
  rw [hstep, hmatch, hsplit, citationCount_lead _ _ hlead, hS]
  simp

/-- The character content of a deterministic-path answer: the rendered
citation token, a space, then the snippet characters. -/
theorem fallback_data_shape (top : Chunk) :
    (top.get_citation ++ " " ++ snippetOf top).data
      = '[' :: 'p' :: (natToDec top.page_num ++ ':' :: 'c' ::
          (natToDec top.chunk_id ++ ']' :: ' ' :: (snippetOf top).data)) := by
  have hmk : ∀ l : List Char, (String.mk l).data = l := fun _ => rfl
  simp [Chunk.get_citation, String.data_append, hmk]

/-- Claim C3 (amended): for a non-empty ranked result list the
deterministic composer refuses exactly when the top score is below
0.4; otherwise it returns the top chunk's citation token, a space, and
the first 200 characters of its text with `"..."` appended exactly
when the text exceeds 200 characters — and the result contains exactly
one citation token provided the snippet itself contains no
citation-shaped substring. -/
theorem fallback_answer_gate (top : Chunk) (score : ℚ) (rest : List (Chunk × ℚ)) :
    (score < 2 / 5 → fallback_answer ((top, score) :: rest) = "Not found in the document.")
      ∧ ((2 : ℚ) / 5 ≤ score →
          fallback_answer ((top, score) :: rest) = top.get_citation ++ " " ++ snippetOf top
            ∧ (top.text.length > 200 → snippetOf top = strTake top.text 200 ++ "...")
            ∧ (top.text.length ≤ 200 → snippetOf top = top.text)
            ∧ (citationCount (snippetOf top).data = 0 →
                citationCount (fallback_answer ((top, score) :: rest)).data = 1)) := by
  constructor
  · intro h
    simp [fallback_answer, refusalString, if_pos h]
  · intro h
    have hn : ¬ score < 2 / 5 := not_lt.mpr h
    have heq : fallback_answer ((top, score) :: rest)
        = top.get_citation ++ " " ++ snippetOf top := by
      simp [fallback_answer, hn]
    refine ⟨heq, ?_, ?_, ?_⟩
    · intro hl
      simp [snippetOf, hl]
    · intro hl
      simp [snippetOf, Nat.not_lt.mpr hl]
    · intro hzero
      rw [heq, fallback_data_shape]
      exact citationCount_token_space top.page_num top.chunk_id _ hzero

/-- Claim C3 (counterexample): when the top chunk's own text contains a
citation-shaped substring, the deterministic answer contains two
citation tokens, not exactly one. -/
theorem fallback_answer_two_citations_cex :
    fallback_answer [(⟨"[p9:c9] xyz", 1, 0⟩, 1)] = "[p1:c0] [p9:c9] xyz"
      ∧ citationCount (fallback_answer [(⟨"[p9:c9] xyz", 1, 0⟩, 1)]).data = 2 := by
  have h : ¬ ((1 : ℚ) < 2 / 5) := by norm_num
  have hfb : fallback_answer [(⟨"[p9:c9] xyz", 1, 0⟩, 1)] = "[p1:c0] [p9:c9] xyz" := by
    simp only [fallback_answer, if_neg h]
    decide
  exact ⟨hfb, by rw [hfb]; decide⟩

/-- Witness for `fallback_answer_gate` at a concrete above-threshold
result list with a citation-free snippet. -/
theorem fallback_answer_gate_witness :
    (2 : ℚ) / 5 ≤ 1 / 2
      ∧ fallback_answer [(⟨"hello", 2, 3⟩, (1 : ℚ) / 2)]
          = (Chunk.mk "hello" 2 3).get_citation ++ " " ++ snippetOf ⟨"hello", 2, 3⟩
      ∧ citationCount (fallback_answer [(⟨"hello", 2, 3⟩, (1 : ℚ) / 2)]).data = 1 := by
  refine ⟨by norm_num, ?_, ?_⟩
  · exact ((fallback_answer_gate ⟨"hello", 2, 3⟩ ((1 : ℚ) / 2) []).2 (by norm_num)).1
  · exact ((fallback_answer_gate ⟨"hello", 2, 3⟩ ((1 : ℚ) / 2) []).2 (by norm_num)).2.2.2
      (by decide)

/-- If a pattern matches nowhere in a text, substituting it away is the
identity. -/
theorem subPatF_id (m : List Char → Option (List Char)) :
    ∀ (fuel : Nat) (l : List Char), noMatchAll m l = true → subPatF m fuel l = l := by
  intro fuel
  induction fuel with
  | zero => intro l _; rfl
  | succ k ih =>
    intro l h
    cases l with
    | nil => rfl
    | cons c cs =>
      simp only [noMatchAll, Bool.and_eq_true, Option.isNone_iff_eq_none] at h
      simp only [subPatF, h.1]
      rw [ih cs h.2]

/-- `subPat` is the identity on pattern-free text. -/
theorem subPat_id (m : List Char → Option (List Char)) (l : List Char)
    (h : noMatchAll m l = true) : subPat m l = l :=
  subPatF_id m (l.length + 1) l h

/-- Collapsing does not change whether the text starts with
whitespace. -/
theorem headIsWS_collapse (l : List Char) : headIsWS (collapseWS l) = headIsWS l := by
  induction l with
  | nil => rfl
  | cons c cs ih =>
    by_cases hc : c.isWhitespace
    · by_cases hcs : headIsWS cs
      · rw [show collapseWS (c :: cs) = collapseWS cs from by simp [collapseWS, hc, hcs], ih]
        rw [hcs, show headIsWS (c :: cs) = c.isWhitespace from rfl, hc]
      · rw [show collapseWS (c :: cs) = ' ' :: collapseWS cs from by simp [collapseWS, hc, hcs]]
        show (' ' : Char).isWhitespace = headIsWS (c :: cs)
        rw [show headIsWS (c :: cs) = c.isWhitespace from rfl, hc]
        decide
    · rw [show collapseWS (c :: cs) = c :: collapseWS cs from by simp [collapseWS, hc]]
      rfl

/-- The output of `collapseWS` is collapsed. -/
theorem isCollapsed_collapse (l : List Char) : isCollapsed (collapseWS l) = true := by
  induction l with
  | nil => rfl
  | cons c cs ih =>
    by_cases hc : c.isWhitespace
    · by_cases hcs : headIsWS cs
      · simpa [collapseWS, hc, hcs] using ih
      · have hh : headIsWS (collapseWS cs) = false := by
          rw [headIsWS_collapse]
          exact Bool.not_eq_true _ ▸ (by simpa using hcs)
        simp [collapseWS, hc, hcs, isCollapsed, hh, ih]
    · simp [collapseWS, hc, isCollapsed, ih]

/-- `collapseWS` is the identity on collapsed text. -/
theorem collapse_of_isCollapsed :
    ∀ l : List Char, isCollapsed l = true → collapseWS l = l := by
  intro l
  induction l with
  | nil => intro _; rfl
  | cons c cs ih =>
    intro h
    simp only [isCollapsed, Bool.and_eq_true, Bool.or_eq_true, Bool.not_eq_true',
      decide_eq_true_eq] at h
    by_cases hc : c.isWhitespace
    · rcases h.1 with hfalse | ⟨hsp, hhead⟩
      · rw [hc] at hfalse; cases hfalse
      · simp [collapseWS, hc, hhead, hsp, ih h.2]
    · simp [collapseWS, hc, ih h.2]

/-- A prefix of collapsed text is collapsed. -/
theorem isCollapsed_append_left :
    ∀ (l₁ l₂ : List Char), isCollapsed (l₁ ++ l₂) = true → isCollapsed l₁ = true := by
  intro l₁
  induction l₁ with
  | nil => intro l₂ _; rfl
  | cons c t ih =>
    intro l₂ h
    simp only [List.cons_append, isCollapsed, Bool.and_eq_true, Bool.or_eq_true,
      Bool.not_eq_true', decide_eq_true_eq] at h ⊢
    refine ⟨?_, ih l₂ h.2⟩
    cases t with
    | nil =>
      rcases h.1 with hfalse | ⟨hsp, _⟩
      · exact Or.inl hfalse
      · exact Or.inr ⟨hsp, rfl⟩
    | cons a t' =>
      exact h.1

/-- Every list is its trailing-whitespace-free part followed by
whitespace. -/
theorem dropTrailingWS_eq (l : List Char) :
    l = dropTrailingWS l ++ (l.reverse.takeWhile Char.isWhitespace).reverse := by
  conv_lhs => rw [← List.reverse_reverse l,
    ← List.takeWhile_append_dropWhile Char.isWhitespace l.reverse]
  rw [List.reverse_append]
  rfl

/-- Dropping a prefix preserves collapsedness. -/
theorem isCollapsed_dropWhile (p : Char → Bool) :
    ∀ l : List Char, isCollapsed l = true → isCollapsed (l.dropWhile p) = true := by
  intro l
  induction l with
  | nil => intro _; rfl
  | cons c cs ih =>
    intro h
    have h2 : isCollapsed cs = true := by
      simp only [isCollapsed, Bool.and_eq_true] at h
      exact h.2
    by_cases hp : p c
    · simpa [List.dropWhile, hp] using ih h2
    · simpa [List.dropWhile, hp] using h

/-- Stripping preserves collapsedness. -/
theorem isCollapsed_stripWS (l : List Char) (h : isCollapsed l = true) :
    isCollapsed (stripWS l) = true := by
  unfold stripWS
  have h1 : isCollapsed (l.dropWhile Char.isWhitespace) = true :=
    isCollapsed_dropWhile Char.isWhitespace l h
  have h2 := dropTrailingWS_eq (l.dropWhile Char.isWhitespace)
  exact isCollapsed_append_left _ _ (by rw [← h2]; exact h1)

/-- After dropping leading whitespace the head is not whitespace. -/
theorem headIsWS_dropWhileWS :
    ∀ l : List Char, headIsWS (l.dropWhile Char.isWhitespace) = false := by
  intro l
  induction l with
  | nil => rfl
  | cons c cs ih =>
    by_cases hc : c.isWhitespace
    · simpa [List.dropWhile, hc] using ih
    · simp [List.dropWhile, hc, headIsWS]

/-- Dropping leading whitespace from text with a non-whitespace head is
the identity. -/
theorem dropWhileWS_of_head (l : List Char) (h : headIsWS l = false) :
    l.dropWhile Char.isWhitespace = l := by
  cases l with
  | nil => rfl
  | cons c cs =>
    simp only [headIsWS] at h
    simp [List.dropWhile, h]

/-- Stripping text with no leading whitespace and no trailing
whitespace is the identity. -/
theorem stripWS_of_clean (y : List Char) (hhead : headIsWS y = false)
    (hrevfix : y.reverse.dropWhile Char.isWhitespace = y.reverse) :
    stripWS y = y := by
  unfold stripWS dropTrailingWS
  rw [dropWhileWS_of_head y hhead, hrevfix, List.reverse_reverse]

/-- Python `strip` is idempotent. -/
theorem stripWS_idem (l : List Char) : stripWS (stripWS l) = stripWS l := by
  have hrev : (stripWS l).reverse
      = (l.dropWhile Char.isWhitespace).reverse.dropWhile Char.isWhitespace := by
    unfold stripWS dropTrailingWS
    rw [List.reverse_reverse]
  have hheady : headIsWS (stripWS l) = false := by
    have hpre := dropTrailingWS_eq (l.dropWhile Char.isWhitespace)
    have hx := headIsWS_dropWhileWS l
    cases hy : dropTrailingWS (l.dropWhile Char.isWhitespace) with
    | nil =>
      show headIsWS (dropTrailingWS (l.dropWhile Char.isWhitespace)) = false
      rw [hy]
      rfl
    | cons a t =>
      show headIsWS (dropTrailingWS (l.dropWhile Char.isWhitespace)) = false
      rw [hy]
      rw [hpre, hy] at hx
      exact hx
  have hrevfix : (stripWS l).reverse.dropWhile Char.isWhitespace = (stripWS l).reverse := by
    rw [hrev]
    exact dropWhileWS_of_head _ (headIsWS_dropWhileWS _)
  exact stripWS_of_clean (stripWS l) hheady hrevfix

/-- Claim C8 (amended): `clean_text` is idempotent on every input whose
cleaned form is free of the removed watermark/boilerplate patterns;
the whitespace collapapsing and edge trimming alone are always
idempotent, but a second cleaning can remove more when the first
splices a new pattern occurrence together. -/
theorem clean_text_idem_amended (s : String)
    (h1 : noMatchAll matchP1 (clean_text s).data = true)
    (h2 : noMatchAll matchP2 (clean_text s).data = true)
    (h3 : noMatchAll matchP3 (clean_text s).data = true) :
    clean_text (clean_text s) = clean_text s := by
  show String.mk (stripWS (collapseWS
      (subPat matchP3 (subPat matchP2 (subPat matchP1 (clean_text s).data)))))
    = clean_text s
  rw [subPat_id matchP1 _ h1, subPat_id matchP2 _ h2, subPat_id matchP3 _ h3]
  have hdata : (clean_text s).data
      = stripWS (collapseWS (subPat matchP3 (subPat matchP2 (subPat matchP1 s.data)))) :=
    rfl
  rw [hdata]
  rw [collapse_of_isCollapsed _ (isCollapsed_stripWS _ (isCollapsed_collapse _))]
  rw [stripWS_idem]
  rfl

/-- Claim C8 (counterexample): cleaning
`"STRICTLY STRICTLY CONFIDENTIAL CONFIDENTIAL"` once leaves
`"STRICTLY CONFIDENTIAL"` (removing the inner watermark splices a new
occurrence together), and cleaning twice leaves `""` — so
`clean_text` is not idempotent. -/
theorem clean_text_not_idempotent_cex :
    clean_text "STRICTLY STRICTLY CONFIDENTIAL CONFIDENTIAL" = "STRICTLY CONFIDENTIAL"
      ∧ clean_text (clean_text "STRICTLY STRICTLY CONFIDENTIAL CONFIDENTIAL") = ""
      ∧ clean_text (clean_text "STRICTLY STRICTLY CONFIDENTIAL CONFIDENTIAL")
          ≠ clean_text "STRICTLY STRICTLY CONFIDENTIAL CONFIDENTIAL" :=
  ⟨by decide, by decide, by decide⟩

/-- Witness for `clean_text_idem_amended` on a concrete pattern-free
input. -/
theorem clean_text_idem_amended_witness :
    noMatchAll matchP1 (clean_text "hello  world").data = true
      ∧ noMatchAll matchP2 (clean_text "hello  world").data = true
      ∧ noMatchAll matchP3 (clean_text "hello  world").data = true
      ∧ clean_text (clean_text "hello  world") = clean_text "hello  world" :=
  ⟨by decide, by decide, by decide,
   clean_text_idem_amended "hello  world" (by decide) (by decide) (by decide)⟩

end RagSpec
